import Mathlib

/-!
Verification of the security-header checker `check_headers.py`.

The script issues one HTTP GET per configured URL, inspects the response
headers for six fixed security headers, and accumulates per-URL reports
into a JSON file.  We embed the data model and the two operations
(`check_security_headers` and the driver loop) as executable Lean
definitions and prove the specified properties about them.
-/

namespace CheckHeaders

/-- Containment of one character list inside another, at any position.
Models Python's `sub in s` operator on strings (empty pattern matches). -/
def charsContain (pat : List Char) : List Char → Bool
  | [] => pat.isEmpty
  | c :: t => pat.isPrefixOf (c :: t) || charsContain pat t

/-- Models the Python string-containment test `pat in hay` used in
`expected_value in headers[header]`. -/
def strContainsSub (hay pat : String) : Bool :=
  charsContain pat.data hay.data

/-- Response headers, as delivered by the HTTP client.  The client's
header mapping is case-insensitive in the header names, so lookups go
through a lowercase comparison. -/
structure Headers where
  entries : List (String × String)
deriving DecidableEq

/-- Lowercasing of a header name, character by character, as the
client's case-insensitive dictionary applies `str.lower()` to keys. -/
def strLower (s : String) : String :=
  ⟨s.data.map Char.toLower⟩

/-- Case-insensitive lookup in the response headers: models both
`header in headers` (membership) and `headers[header]` (access) of the
client's case-insensitive header dictionary. -/
def Headers.find (hs : Headers) (name : String) : Option String :=
  (hs.entries.find? (fun p => strLower p.1 == strLower name)).map Prod.snd

/-- Per-header check record: `{'present': ..., 'value': ..., 'secure': ...}`. -/
structure HeaderCheckResult where
  present : Bool
  value : Option String
  secure : Bool
deriving DecidableEq

/-- The fixed `security_headers` table of the source: header name to
expected substring. -/
def security_headers : List (String × String) :=
  [("X-Content-Type-Options", "nosniff"),
   ("X-Frame-Options", "DENY"),
   ("X-XSS-Protection", "1; mode=block"),
   ("Strict-Transport-Security", "max-age=31536000"),
   ("Content-Security-Policy", "default-src \x27self\x27"),
   ("Referrer-Policy", "strict-origin-when-cross-origin")]

/-- Body of the `for header, expected_value in security_headers.items()`
loop: the record stored in `results[header]`. -/
def checkHeader (hs : Headers) (header expected : String) : HeaderCheckResult :=
  match hs.find header with
  | some v => ⟨true, some v, strContainsSub v expected⟩
  | none => ⟨false, none, false⟩

/-- The `results` dictionary built from a successful response: one entry
per configured header, in table order. -/
def serviceReport (hs : Headers) : List (String × HeaderCheckResult) :=
  security_headers.map (fun p => (p.1, checkHeader hs p.1 p.2))

/-- Outcome of `requests.get(url, timeout=10)`: either response headers or
an exception carrying its message. -/
def Fetch := String → Except String Headers

/-- The function `check_security_headers(url)`: performs the single
request, builds the per-header results on success, and on any exception
returns `None` after printing the diagnostic line.  The second component
collects the lines printed to standard output. -/
def check_security_headers (fetch : Fetch) (url : String) :
    Option (List (String × HeaderCheckResult)) × List String :=
  match fetch url with
  | .ok hs => (some (serviceReport hs), [])
  | .error e => (none, ["Error checking " ++ url ++ ": " ++ e])

/-- The static target list of the `__main__` driver. -/
def urls : List String :=
  ["http://api-gateway:8090",
   "http://database-service:8115",
   "http://monitoring-service:8116"]

/-- Accumulation of `all_results` by the driver loop over an arbitrary
URL list: `if results: all_results[url] = results`. -/
def auditList (fetch : Fetch) : List String → List (String × List (String × HeaderCheckResult))
  | [] => []
  | u :: rest =>
    match (check_security_headers fetch u).1 with
    | some r => (u, r) :: auditList fetch rest
    | none => auditList fetch rest

/-- The `all_results` mapping produced by the driver over the static URL
list. -/
def audit (fetch : Fetch) : List (String × List (String × HeaderCheckResult)) :=
  auditList fetch urls

/-- The expected-substring table as the specification spells it out,
row by row, for comparison with the table defined from the source. -/
def expectedTableSpec : List (String × String) :=
  [("X-Content-Type-Options", "nosniff"),
   ("X-Frame-Options", "DENY"),
   ("X-XSS-Protection", "1; mode=block"),
   ("Strict-Transport-Security", "max-age=31536000"),
   ("Content-Security-Policy", "default-src \x27self\x27"),
   ("Referrer-Policy", "strict-origin-when-cross-origin")]

/-- Claim C7: the fixed expected-substring table used by
`check_security_headers` maps exactly the six header names to exactly the
six substrings listed in the specification. -/
theorem security_headers_eq_spec_table :
    security_headers = expectedTableSpec := by
  rfl

/-- Claim C1: for every response and each of the six configured headers,
the produced `HeaderCheckResult` has `secure = true` if and only if
`present = true` and the expected substring occurs within the observed
header value.  The record for header `h` in the report is
`checkHeader hs h e`. -/
theorem secure_iff_present_and_substring (hs : Headers) (h e : String)
    (hmem : (h, e) ∈ security_headers) :
    (h, checkHeader hs h e) ∈ serviceReport hs ∧
    ((checkHeader hs h e).secure = true ↔
      (checkHeader hs h e).present = true ∧
      ∃ v, (checkHeader hs h e).value = some v ∧ strContainsSub v e = true) := by
  constructor
  · exact List.mem_map.mpr ⟨(h, e), hmem, rfl⟩
  · unfold checkHeader
    cases hfind : hs.find h with
    | some v => simp
    | none => simp

/-- Witness for `secure_iff_present_and_substring` at the header
`X-Frame-Options` with the empty response. -/
theorem secure_iff_present_and_substring_witness :
    ("X-Frame-Options", checkHeader ⟨[]⟩ "X-Frame-Options" "DENY") ∈
      serviceReport ⟨[]⟩ ∧
    ((checkHeader ⟨[]⟩ "X-Frame-Options" "DENY").secure = true ↔
      (checkHeader ⟨[]⟩ "X-Frame-Options" "DENY").present = true ∧
      ∃ v, (checkHeader ⟨[]⟩ "X-Frame-Options" "DENY").value = some v ∧
        strContainsSub v "DENY" = true) :=
  secure_iff_present_and_substring ⟨[]⟩ "X-Frame-Options" "DENY" (by decide)

/-- Claim C5: for a response containing none of the six configured
headers, all six `HeaderCheckResult`s are
`{present: false, value: null, secure: false}`. -/
theorem absent_headers_all_insecure (hs : Headers)
    (habs : ∀ p ∈ security_headers, hs.find p.1 = none) :
    serviceReport hs = security_headers.map (fun p => (p.1, ⟨false, none, false⟩)) := by
  unfold serviceReport
  apply List.map_congr_left
  intro p hp
  have h := habs p hp
  unfold checkHeader
  rw [h]

/-- Witness for `absent_headers_all_insecure` with the empty response. -/
theorem absent_headers_all_insecure_witness :
    serviceReport ⟨[]⟩ =
      security_headers.map (fun p => (p.1, ⟨false, none, false⟩)) :=
  absent_headers_all_insecure ⟨[]⟩ (by decide)

/-- Claim C6: with `X-Frame-Options: DENY` the record for that header is
`{present: true, value: "DENY", secure: true}`; with
`X-Frame-Options: SAMEORIGIN` it is
`{present: true, value: "SAMEORIGIN", secure: false}`. -/
theorem xFrameOptions_deny_and_sameorigin :
    (serviceReport ⟨[("X-Frame-Options", "DENY")]⟩).lookup "X-Frame-Options" =
      some ⟨true, some "DENY", true⟩ ∧
    (serviceReport ⟨[("X-Frame-Options", "SAMEORIGIN")]⟩).lookup "X-Frame-Options" =
      some ⟨true, some "SAMEORIGIN", false⟩ := by
  constructor <;> decide

/-- In a header list whose lowered keys are pairwise distinct (the
invariant of a case-insensitive dictionary), the search for a key finds
exactly the entry delivered under some capitalization of it, wherever
that entry sits among the other headers. -/
lemma find_entry_of_nodup_lower (l : List (String × String)) (key n' v : String)
    (hnodup : (l.map (fun p => strLower p.1)).Nodup)
    (hmem : (n', v) ∈ l) (hcase : strLower n' = key) :
    l.find? (fun p => strLower p.1 == key) = some (n', v) := by
  induction l with
  | nil => simp at hmem
  | cons a t ih =>
    rw [List.find?]
    cases hpa : (strLower a.1 == key) with
    | true =>
      rcases List.mem_cons.mp hmem with heq | hmt
      · rw [heq]
      · exfalso
        apply (List.nodup_cons.mp hnodup).1
        show strLower a.1 ∈ t.map (fun p => strLower p.1)
        rw [eq_of_beq hpa, ← hcase]
        exact List.mem_map.mpr ⟨(n', v), hmt, rfl⟩
    | false =>
      rcases List.mem_cons.mp hmem with heq | hmt
      · exfalso
        rw [← heq] at hpa
        simp [hcase] at hpa
      · exact ih (List.nodup_cons.mp hnodup).2 hmt

/-- Claim C10: header-name matching is case-insensitive.  For every
response whose lowered header names are pairwise distinct (as in the
client's case-insensitive dictionary), a header delivered under any
capitalization `n'` of a configured name `n`, anywhere among the other
headers, is found by the lookup, treated as present, and its value is
the one recorded. -/
theorem headerLookup_case_insensitive (hs : Headers) (n n' v e : String)
    (hnodup : (hs.entries.map (fun p => strLower p.1)).Nodup)
    (hmem : (n', v) ∈ hs.entries)
    (hcase : strLower n' = strLower n) :
    Headers.find hs n = some v ∧
    checkHeader hs n e = ⟨true, some v, strContainsSub v e⟩ := by
  have hfind : Headers.find hs n = some v := by
    unfold Headers.find
    rw [find_entry_of_nodup_lower hs.entries (strLower n) n' v hnodup hmem hcase]
    rfl
  exact ⟨hfind, by unfold checkHeader; rw [hfind]⟩

/-- Witness for `headerLookup_case_insensitive`: a lowercase
`x-frame-options` response header, delivered alongside other headers, is
matched for `X-Frame-Options`. -/
theorem headerLookup_case_insensitive_witness :
    Headers.find ⟨[("Content-Type", "text/html"), ("x-frame-options", "DENY"),
        ("Server", "nginx")]⟩ "X-Frame-Options" = some "DENY" ∧
    checkHeader ⟨[("Content-Type", "text/html"), ("x-frame-options", "DENY"),
        ("Server", "nginx")]⟩ "X-Frame-Options" "DENY" =
      ⟨true, some "DENY", strContainsSub "DENY" "DENY"⟩ :=
  headerLookup_case_insensitive
    ⟨[("Content-Type", "text/html"), ("x-frame-options", "DENY"),
      ("Server", "nginx")]⟩
    "X-Frame-Options" "x-frame-options" "DENY" "DENY"
    (by decide) (by decide) (by decide)

/-- Characterization of the first component of `check_security_headers`:
some report exactly when the request succeeded. -/
lemma check_security_headers_fst (fetch : Fetch) (u : String) :
    (check_security_headers fetch u).1 =
      match fetch u with
      | .ok hs => some (serviceReport hs)
      | .error _ => none := by
  unfold check_security_headers
  cases fetch u <;> rfl

/-- Every entry of the accumulated report comes from a URL of the list
whose request succeeded, and carries that response's report. -/
lemma mem_auditList (fetch : Fetch) (l : List String) (u : String)
    (r : List (String × HeaderCheckResult)) (hmem : (u, r) ∈ auditList fetch l) :
    u ∈ l ∧ ∃ hs, fetch u = Except.ok hs ∧ r = serviceReport hs := by
  induction l with
  | nil => simp [auditList] at hmem
  | cons a t ih =>
    rw [auditList, check_security_headers_fst] at hmem
    cases hfa : fetch a with
    | ok hs =>
      rw [hfa] at hmem
      rcases List.mem_cons.mp hmem with heq | htail
      · obtain ⟨hu, hr⟩ := Prod.ext_iff.mp heq
        subst hu
        exact ⟨List.mem_cons_self _ _, hs, hfa, hr⟩
      · obtain ⟨hl, hrest⟩ := ih htail
        exact ⟨List.mem_cons_of_mem a hl, hrest⟩
    | error e =>
      rw [hfa] at hmem
      obtain ⟨hl, hrest⟩ := ih hmem
      exact ⟨List.mem_cons_of_mem a hl, hrest⟩

/-- The key list of the accumulated report is exactly the sublist of URLs
whose request succeeded. -/
lemma auditList_keys (fetch : Fetch) (l : List String) :
    (auditList fetch l).map Prod.fst = l.filter (fun u => (fetch u).isOk) := by
  induction l with
  | nil => rfl
  | cons a t ih =>
    rw [auditList, check_security_headers_fst]
    cases hfa : fetch a with
    | ok hs => simp [hfa, List.filter_cons, Except.isOk, Except.toBool, ih]
    | error e => simp [hfa, List.filter_cons, Except.isOk, Except.toBool, ih]

/-- Claim C2: a URL whose request failed does not appear as a key of the
final report, and entries are added only for URLs whose request
succeeded; errored URLs are omitted rather than recorded with an error
marker. -/
theorem errored_urls_omitted (fetch : Fetch) :
    (∀ u, (fetch u).isOk = false → ∀ r, (u, r) ∉ audit fetch) ∧
    (∀ u r, (u, r) ∈ audit fetch →
      ∃ hs, fetch u = Except.ok hs ∧ r = serviceReport hs) := by
  constructor
  · intro u hfail r hmem
    obtain ⟨-, hs, hok, -⟩ := mem_auditList fetch urls u r hmem
    rw [hok] at hfail
    exact Bool.true_eq_false ▸ hfail
  · intro u r hmem
    exact (mem_auditList fetch urls u r hmem).2

/-- Witness for `errored_urls_omitted`: with every request refused, the
first URL carries no entry in the report. -/
theorem errored_urls_omitted_witness :
    ("http://api-gateway:8090", serviceReport ⟨[]⟩) ∉
      audit (fun _ => Except.error "connection refused") :=
  (errored_urls_omitted (fun _ => Except.error "connection refused")).1
    "http://api-gateway:8090" rfl (serviceReport ⟨[]⟩)

/-- Claim C3: any failure of the request is caught, the diagnostic line
naming the URL and the error is emitted to standard output, and the
function returns no result; nothing is re-raised and no second request is
issued. -/
theorem request_error_caught (fetch : Fetch) (url e : String)
    (herr : fetch url = Except.error e) :
    (check_security_headers fetch url).1 = none ∧
    (check_security_headers fetch url).2 =
      ["Error checking " ++ url ++ ": " ++ e] := by
  unfold check_security_headers
  rw [herr]
  exact ⟨rfl, rfl⟩

/-- Witness for `request_error_caught` at a refused connection. -/
theorem request_error_caught_witness :
    (check_security_headers (fun _ => Except.error "connection refused")
        "http://api-gateway:8090").1 = none ∧
    (check_security_headers (fun _ => Except.error "connection refused")
        "http://api-gateway:8090").2 =
      ["Error checking " ++ "http://api-gateway:8090" ++ ": " ++
        "connection refused"] :=
  request_error_caught (fun _ => Except.error "connection refused")
    "http://api-gateway:8090" "connection refused" rfl

/-- Claim C9: for every URL and every outcome of the request,
`check_security_headers` returns either no report or a complete report
whose keys are exactly the six configured header names; it is a total
function, so no exception reaches the caller. -/
theorem check_none_or_complete (fetch : Fetch) (url : String) :
    (check_security_headers fetch url).1 = none ∨
    ∃ rep, (check_security_headers fetch url).1 = some rep ∧
      rep.map Prod.fst = security_headers.map Prod.fst ∧
      rep.length = 6 := by
  rw [check_security_headers_fst]
  cases hfa : fetch url with
  | error e => exact Or.inl rfl
  | ok hs => exact Or.inr ⟨serviceReport hs, rfl, rfl, rfl⟩

/-- Outcome of the whole `__main__` run, given the request outcomes and
the outcome of writing the report file: the loop itself cannot fail, and
the final write is the only step whose error propagates. -/
def main_run (fetch : Fetch)
    (write : List (String × List (String × HeaderCheckResult)) → Except String Unit) :
    Except String (List (String × List (String × HeaderCheckResult))) :=
  match write (audit fetch) with
  | .ok _ => .ok (audit fetch)
  | .error e => .error e

/-- Claim C8: the process always ends successfully regardless of how many
per-URL checks failed; the only uncaught failure path is the final file
write, whose error propagates unchanged. -/
theorem process_fails_only_on_write (fetch : Fetch)
    (write : List (String × List (String × HeaderCheckResult)) → Except String Unit) :
    main_run fetch write = (write (audit fetch)).map (fun _ => audit fetch) ∧
    main_run fetch (fun _ => Except.ok ()) = Except.ok (audit fetch) := by
  constructor
  · unfold main_run
    cases h : write (audit fetch) <;> rfl
  · rfl

/-- JSON values, as far as the report needs them. -/
inductive Json where
  | null : Json
  | bool (b : Bool) : Json
  | str (s : String) : Json
  | obj (fields : List (String × Json)) : Json

/-- JSON encoding of one `HeaderCheckResult` record. -/
def encodeResult (r : HeaderCheckResult) : Json :=
  .obj [("present", .bool r.present),
        ("value", match r.value with | some v => .str v | none => .null),
        ("secure", .bool r.secure)]

/-- JSON encoding of one per-URL report. -/
def encodeServiceReport (rep : List (String × HeaderCheckResult)) : Json :=
  .obj (rep.map (fun p => (p.1, encodeResult p.2)))

/-- JSON encoding of the whole accumulated report, as handed to
`json.dump`. -/
def encodeAudit (ar : List (String × List (String × HeaderCheckResult))) : Json :=
  .obj (ar.map (fun p => (p.1, encodeServiceReport p.2)))

/-- Modelled from the spec: the report is written with `json.dump` and
the claim reads the file back with a JSON reader; that serialize-then-
read pair of the JSON standard library (not part of this repository)
round-trips, so reading the written file recovers the encoded value
unchanged. -/
def parseWrittenReport (j : Json) : Json := j

/-- Claim C4: parsing the written report yields an object whose keys are
exactly the URLs whose request succeeded, and every value is an object
whose keys are exactly the six configured header names. -/
theorem written_report_roundtrip (fetch : Fetch) :
    ∃ fields, parseWrittenReport (encodeAudit (audit fetch)) = Json.obj fields ∧
      fields.map Prod.fst = urls.filter (fun u => (fetch u).isOk) ∧
      ∀ p ∈ fields, ∃ g, p.2 = Json.obj g ∧
        g.map Prod.fst = security_headers.map Prod.fst := by
  refine ⟨_, rfl, ?_, ?_⟩
  · rw [List.map_map]
    exact auditList_keys fetch urls
  · intro p hp
    rcases List.mem_map.mp hp with ⟨q, hq, hpq⟩
    obtain ⟨-, hs, -, hrep⟩ := mem_auditList fetch urls q.1 q.2 (by simpa using hq)
    refine ⟨(q.2.map (fun x => (x.1, encodeResult x.2))), ?_, ?_⟩
    · rw [← hpq]; rfl
    · rw [hrep]; rfl

/-- Witness for `written_report_roundtrip` with one reachable URL and two
refused ones. -/
theorem written_report_roundtrip_witness :
    ∃ fields,
      parseWrittenReport (encodeAudit (audit (fun u =>
        if u = "http://api-gateway:8090" then Except.ok ⟨[]⟩
        else Except.error "connection refused"))) = Json.obj fields ∧
      fields.map Prod.fst = urls.filter (fun u =>
        ((fun u =>
          if u = "http://api-gateway:8090" then Except.ok ⟨[]⟩
          else Except.error "connection refused" : Fetch) u).isOk) ∧
      ∀ p ∈ fields, ∃ g, p.2 = Json.obj g ∧
        g.map Prod.fst = security_headers.map Prod.fst :=
  written_report_roundtrip (fun u =>
    if u = "http://api-gateway:8090" then Except.ok ⟨[]⟩
    else Except.error "connection refused")

end CheckHeaders
